import Mathlib

/-!
Verification of the unused-package detector core of `package-detector`.

The TypeScript source in `src/utils.ts`, `src/analyzer.ts`, `src/reporter.ts`
is shallowly embedded below.  Filesystem reads are modelled by explicit
parameters: an `ImportEnv` maps a file path to the list of import-reference
literals its text yields (the import extractor's regex scan applied to a fixed
on-disk file is a pure function of the path within one run), and a `FileSys`
maps a directory path (as components below the scan root) to its entries.
JavaScript's anchored-literal regex tests (the patterns are built by escaping
every regex metacharacter of the package name) denote exact string equality
and literal-prefix tests, and are embedded as such.
-/

namespace PackageDetector

/-- A file's extracted import references, keyed by file path
(`extractImports` in `src/utils.ts`, whose per-path cache is
behaviour-transparent because the scan of a fixed file is deterministic). -/
abbrev ImportEnv := String → List String

/-- `pre` is a literal prefix of `s`: the meaning of the JavaScript test
`new RegExp('^' + escape(pre)).test(s)` and of `s.startsWith(pre)`. -/
def strStartsWith (s pre : String) : Bool :=
  pre.data.isPrefixOf s.data

/-- The three per-reference tests of `isPackageUsed` (src/utils.ts:262-279):
exact match, sub-path prefix `packageName + "/"`, and for scoped packages the
bare-prefix test. -/
def matchesImport (packageName imp : String) : Bool :=
  (imp == packageName)
    || strStartsWith imp (packageName ++ "/")
    || (strStartsWith packageName "@" && strStartsWith imp packageName)

/-- The usage verdict of a full (cache-missing) scan of `isPackageUsed`:
some file contributes some matching reference.  The source's double loop with
early `return true` computes exactly this disjunction. -/
def usedVerdict (packageName : String) (projectFiles : List String)
    (env : ImportEnv) : Bool :=
  projectFiles.any fun file => (env file).any (matchesImport packageName)

/-- The `packageUsageCache`: entries keyed by the pair the source builds as
the string `packageName + ":" + projectFiles.length` (src/utils.ts:249). -/
abbrev UsageCache := List ((String × Nat) × Bool)

/-- `isPackageUsed` (src/utils.ts:247-285) with its cache threaded
explicitly: consult the cache under the `(name, file-count)` key, otherwise
scan and record the verdict. -/
def isPackageUsed (cache : UsageCache) (packageName : String)
    (projectFiles : List String) (env : ImportEnv) : Bool × UsageCache :=
  let cacheKey := (packageName, projectFiles.length)
  match cache.lookup cacheKey with
  | some v => (v, cache)
  | none =>
    let used := usedVerdict packageName projectFiles env
    (used, (cacheKey, used) :: cache)

/-- Insertion-order deduplication: the order and membership of a JavaScript
`Set` built by repeated `add`, and of `Object.keys` after `Object.assign`. -/
def dedupFirst (seen : List String) : List String → List String
  | [] => []
  | x :: xs =>
    if x ∈ seen then dedupFirst seen xs
    else x :: dedupFirst (x :: seen) xs

/-- The per-package test of `batchCheckPackageUsage` (src/utils.ts:309-328)
against the pre-extracted union of imports: membership (`allImports.has`),
then sub-path and scoped prefix tests over the set. -/
def batchMatches (allImports : List String) (packageName : String) : Bool :=
  allImports.contains packageName
    || allImports.any fun imp =>
        strStartsWith imp (packageName ++ "/")
          || (strStartsWith packageName "@" && strStartsWith imp packageName)

/-- The result-accumulating loop of `batchCheckPackageUsage`
(src/utils.ts:301-332): per package, a cache hit is copied to the results,
otherwise the pre-extracted imports are tested and the verdict recorded. -/
def batchGo (allImports : List String) (filesLen : Nat) :
    List String → UsageCache → List (String × Bool) × UsageCache
  | [], cache => ([], cache)
  | p :: rest, cache =>
    match cache.lookup (p, filesLen) with
    | some v =>
      let pr := batchGo allImports filesLen rest cache
      ((p, v) :: pr.1, pr.2)
    | none =>
      let isUsed := batchMatches allImports p
      let pr := batchGo allImports filesLen rest (((p, filesLen), isUsed) :: cache)
      ((p, isUsed) :: pr.1, pr.2)

/-- `batchCheckPackageUsage` (src/utils.ts:290-335): pre-extract the union of
all imports of all files once (a `Set`, hence insertion-order deduplicated),
then resolve every package against it, sharing the usage cache. -/
def batchCheckPackageUsage (cache : UsageCache) (packageNames : List String)
    (projectFiles : List String) (env : ImportEnv) :
    List (String × Bool) × UsageCache :=
  let allImports := dedupFirst [] (projectFiles.flatMap env)
  batchGo allImports projectFiles.length packageNames cache

/-- The static infrastructure table `INFRASTRUCTURE_PACKAGES`
(src/analyzer.ts:13-30), in source order.  Note the literal key
`"@types/*"`: as a JavaScript object key it is only ever hit by a package
literally named `"@types/*"`; the pattern behaviour lives in
`isInfrastructurePackage` instead. -/
def INFRASTRUCTURE_PACKAGES : List (String × String) :=
  [("typescript", "Build tool - needed for TypeScript compilation"),
   ("ts-node", "Development tool - needed for running TypeScript directly"),
   ("webpack", "Build tool - needed for bundling"),
   ("jest", "Testing framework - needed for running tests"),
   ("ts-jest", "TypeScript testing - needed for Jest TypeScript support"),
   ("@types/jest", "Type definitions - needed for Jest TypeScript support"),
   ("rimraf", "Development tool - needed for clean script"),
   ("@types/node", "Type definitions - needed for Node.js types"),
   ("@types/*", "Type definitions - needed for TypeScript support")]

/-- The classifier's result shape: `{ isInfra: boolean; reason?: string }`. -/
structure InfraCheck where
  isInfra : Bool
  reason : Option String
deriving Repr, DecidableEq

/-- `isInfrastructurePackage` (src/analyzer.ts:35-47): exact table lookup
first, then the `@types/` scope-pattern rule with its generic reason. -/
def isInfrastructurePackage (packageName : String) : InfraCheck :=
  match INFRASTRUCTURE_PACKAGES.lookup packageName with
  | some r => ⟨true, some r⟩
  | none =>
    if strStartsWith packageName "@types/" then
      ⟨true, some "Type definitions - needed for TypeScript support"⟩
    else ⟨false, none⟩

/-- Finding categories (`DetectionResult.type` in src/reporter.ts). -/
inductive ResultType where
  | unused | outdated | duplicate | heavy
deriving Repr, DecidableEq

/-- Severities (`DetectionResult.severity`). -/
inductive Severity where
  | low | medium | high
deriving Repr, DecidableEq

/-- A Finding (`DetectionResult` in src/reporter.ts): metadata is the
optional key/value record attached by the analyzer. -/
structure DetectionResult where
  type : ResultType
  packageName : String
  message : String
  severity : Severity
  metadata : List (String × String)
deriving Repr, DecidableEq

/-- The truly-unused finding pushed at src/analyzer.ts:99-104. -/
def mkUnusedFinding (packageName : String) : DetectionResult :=
  { type := .unused, packageName,
    message := "Not imported anywhere in the project",
    severity := .medium, metadata := [] }

/-- The infrastructure finding pushed at src/analyzer.ts:87-96; a JavaScript
template interpolation of an `undefined` reason would print `"undefined"`. -/
def mkInfraFinding (packageName : String) (reason : Option String) :
    DetectionResult :=
  { type := .unused, packageName,
    message := "Infrastructure package: " ++ reason.getD "undefined",
    severity := .low,
    metadata := [("category", "infrastructure"), ("reason", reason.getD "undefined")] }

/-- The partitioning loop of `detectUnusedPackages` (src/analyzer.ts:79-107):
used packages are skipped, unused ones go to the truly-unused or the
infrastructure list, preserving declaration order. -/
def processPackages (usage : String → Bool) :
    List String → List DetectionResult × List DetectionResult
  | [] => ([], [])
  | p :: rest =>
    let pr := processPackages usage rest
    if usage p then pr
    else
      let c := isInfrastructurePackage p
      if c.isInfra then (pr.1, mkInfraFinding p c.reason :: pr.2)
      else (mkUnusedFinding p :: pr.1, pr.2)

/-- `PackageJson` (src/utils.ts:10-17); the four dependency groups are
association lists in declaration order. -/
structure PackageJson where
  name : String
  version : String
  dependencies : List (String × String)
  devDependencies : List (String × String)
  peerDependencies : List (String × String)
  optionalDependencies : List (String × String)
deriving Repr

/-- The state of `package.json` on disk, as `readPackageJson` observes it:
absent, present but failing `JSON.parse` (with the parser's message), or
parsed. -/
inductive ManifestState where
  | missing
  | unparseable (msg : String)
  | ok (pkg : PackageJson)

/-- `readPackageJson` (src/utils.ts:51-64): throwing is modelled by
`Except.error` carrying the thrown message. -/
def readPackageJson : ManifestState → Except String PackageJson
  | .missing => .error "package.json not found in current directory"
  | .unparseable msg => .error ("Failed to parse package.json: " ++ msg)
  | .ok pkg => .ok pkg

/-- The declared package names of `getAllDependencies` (src/utils.ts:69-80):
`Object.assign` of the four groups in order keeps each key at its first
insertion position, so `Object.keys` is the insertion-order deduplication of
the concatenated key lists. -/
def getAllDependencyNames (pkg : PackageJson) : List String :=
  dedupFirst []
    ((pkg.dependencies ++ pkg.devDependencies ++ pkg.peerDependencies
        ++ pkg.optionalDependencies).map Prod.fst)

/-- A directory entry as `readdirSync` plus `statSync` classifies it. -/
inductive DirEntry where
  | dirE (name : String)
  | fileE (name : String)

/-- The scanned tree: a directory, addressed by its path components below the
scan root, yields its entries.  A function (not an inductive tree) so that
symlink-cyclic filesystems, where the same directory recurs at every depth,
are expressible. -/
abbrev FileSys := List String → List DirEntry

/-- The characters after the last dot of a name, if any dot occurs. -/
def extAfterLastDot : List Char → Option (List Char)
  | [] => none
  | c :: cs =>
    match extAfterLastDot cs with
    | some suf => some suf
    | none => if c = '.' then some cs else none

/-- `path.extname` on a `readdirSync` basename, as used at
src/utils.ts:113: the suffix from the last dot, empty for dotfiles (a dot in
first position does not start an extension) and extensionless names. -/
def extname (item : String) : String :=
  match item.data with
  | [] => ""
  | _ :: cs =>
    match extAfterLastDot cs with
    | some suf => String.mk ('.' :: suf)
    | none => ""

/-- `String.prototype.toLowerCase` restricted to the per-character case map:
the `.toLowerCase()` call at src/utils.ts:113. -/
def strToLower (s : String) : String :=
  String.mk (s.data.map Char.toLower)

/-- Default `extensions` argument of `findProjectFiles` (src/utils.ts:87). -/
def defaultExtensions : List String :=
  [".js", ".jsx", ".ts", ".tsx", ".vue", ".svelte"]

/-- Default `excludeDirs` argument of `findProjectFiles` (src/utils.ts:88). -/
def defaultExcludeDirs : List String :=
  ["node_modules", ".git", "dist", "build", "coverage", ".next", ".nuxt", ".cache"]

/-- `scanDirectory` (src/utils.ts:93-127) in fuel form: the source guards
`if (depth > 20) return`, entering with depth 0, so a directory is scanned
exactly when its depth is at most 20 — i.e. when `21 - depth` fuel remains.
Structural recursion on the fuel makes the walk total on every `FileSys`,
cyclic ones included.  Entries are processed in listing order: excluded or
out-of-fuel directories contribute nothing, files are kept when their
lower-cased extension is allow-listed. -/
def scanDirectory (fs : FileSys) (extensions excludeDirs : List String) :
    Nat → List String → List (List String)
  | 0, _ => []
  | fuel + 1, dir =>
    (fs dir).flatMap fun item =>
      match item with
      | .dirE name =>
        if excludeDirs.contains name then []
        else scanDirectory fs extensions excludeDirs fuel (dir ++ [name])
      | .fileE name =>
        if extensions.contains (strToLower (extname name)) then [dir ++ [name]]
        else []

/-- `findProjectFiles` (src/utils.ts:85-131) with the default arguments the
analyzer uses: scan from the root with the depth bound, rendering each
collected component path under `rootDir` with the path separator, as
`join` builds it. -/
def findProjectFiles (fs : FileSys) (rootDir : String) : List String :=
  (scanDirectory fs defaultExtensions defaultExcludeDirs 21 []).map
    fun comps => String.intercalate "/" (rootDir :: comps)

/-- The reporter as the run observes it: findings added via `addResults`, and
the `printInfo` / `printSuccess` / `printError` message streams
(src/reporter.ts). -/
structure ReporterState where
  results : List DetectionResult
  infos : List String
  successes : List String
  errors : List String
deriving Repr, DecidableEq

/-- `detectUnusedPackages` (src/analyzer.ts:52-136).  The run clears the
caches, reads the manifest (errors are caught at the `try` boundary and
surfaced as one `printError`), returns early on an empty dependency list,
locates files, resolves usage in batch, partitions the unused packages, and
emits findings plus the summary messages, in source order.  Returns the
reporter output of this run together with the usage cache it leaves
behind. -/
def detectUnusedPackages (_cache0 : UsageCache) (manifest : ManifestState)
    (fs : FileSys) (rootDir : String) (env : ImportEnv) :
    ReporterState × UsageCache :=
  let cache : UsageCache := []
  let r0 : ReporterState :=
    { results := [], infos := ["Scanning project files for imports..."],
      successes := [], errors := [] }
  match readPackageJson manifest with
  | .error e =>
    ({ r0 with errors := ["Failed to detect unused packages: " ++ e] }, cache)
  | .ok pkg =>
    let dependencyNames := getAllDependencyNames pkg
    if dependencyNames.isEmpty then
      ({ r0 with infos := r0.infos ++ ["No dependencies found in package.json"] },
       cache)
    else
      let projectFiles := findProjectFiles fs rootDir
      let r1 := { r0 with
        infos := r0.infos
          ++ ["Found " ++ toString projectFiles.length ++ " project files to analyze"] }
      let batchOut := batchCheckPackageUsage cache dependencyNames projectFiles env
      let usageResults := batchOut.1
      let cache1 := batchOut.2
      let usage := fun p => ((usageResults.lookup p).getD false)
      let unusedPackages := (processPackages usage dependencyNames).1
      let infrastructurePackages := (processPackages usage dependencyNames).2
      let allResults := unusedPackages ++ infrastructurePackages
      let r2 :=
        if allResults.length > 0 then
          let ra := { r1 with results := r1.results ++ allResults }
          let rb :=
            if unusedPackages.length > 0 then
              { ra with infos := ra.infos
                  ++ ["Found " ++ toString unusedPackages.length
                        ++ " truly unused packages"] }
            else ra
          if infrastructurePackages.length > 0 then
            { rb with infos := rb.infos
                ++ ["Found " ++ toString infrastructurePackages.length
                      ++ " infrastructure packages (needed for project but not imported)"] }
          else rb
        else
          { r1 with successes := r1.successes ++ ["All packages are being used"] }
      let r3 :=
        if unusedPackages.length == 0 && infrastructurePackages.length == 0 then
          { r2 with successes := r2.successes
              ++ ["✅ No unused packages found! All dependencies are being used."] }
        else if unusedPackages.length == 0 then
          { r2 with successes := r2.successes
              ++ ["✅ No truly unused packages found! Only infrastructure packages detected."] }
        else r2
      (r3, cache1)

/-- The usage cache only holds correct verdicts for the current file list. -/
def CacheConsistent (files : List String) (env : ImportEnv) (cache : UsageCache) : Prop :=
  ∀ q v, cache.lookup (q, files.length) = some v → v = usedVerdict q files env

/-- The usage function the orchestrator derives from the batch results
(`usageResults[packageName]` at src/analyzer.ts:80). -/
def detectUsageFun (pkg : PackageJson) (fs : FileSys) (rootDir : String)
    (env : ImportEnv) : String → Bool :=
  fun q =>
    (((batchCheckPackageUsage [] (getAllDependencyNames pkg)
        (findProjectFiles fs rootDir) env).1.lookup q).getD false)

/-! ### String-prefix facts -/

theorem strStartsWith_append (a b : String) : strStartsWith (a ++ b) a = true := by
  rw [strStartsWith, List.isPrefixOf_iff_prefix, String.data_append]
  exact ⟨b.data, rfl⟩

theorem strStartsWith_refl (s : String) : strStartsWith s s = true := by
  rw [strStartsWith, List.isPrefixOf_iff_prefix]

theorem strStartsWith_weaken (s a b : String)
    (h : strStartsWith s (a ++ b) = true) : strStartsWith s a = true := by
  rw [strStartsWith, List.isPrefixOf_iff_prefix] at h ⊢
  rw [String.data_append] at h
  exact List.IsPrefix.trans ⟨b.data, rfl⟩ h

/-! ### `matchesImport` characterisation -/

theorem matchesImport_exact (p : String) : matchesImport p p = true := by
  simp [matchesImport]

theorem matchesImport_subpath (p x : String) :
    matchesImport p (p ++ "/" ++ x) = true := by
  have h := strStartsWith_append (p ++ "/") x
  simp [matchesImport, h]

theorem matchesImport_scoped (p imp : String)
    (hat : strStartsWith p "@" = true) (hpre : strStartsWith imp p = true) :
    matchesImport p imp = true := by
  simp [matchesImport, hat, hpre]

theorem startsWith_of_matchesImport (p imp : String)
    (h : matchesImport p imp = true) : strStartsWith imp p = true := by
  rw [matchesImport, Bool.or_eq_true, Bool.or_eq_true] at h
  rcases h with (h | h) | h
  · rw [beq_iff_eq] at h
    subst h; exact strStartsWith_refl imp
  · exact strStartsWith_weaken imp p "/" h
  · exact (Bool.and_eq_true _ _ |>.mp h).2

theorem matchesImport_eq_false (p imp : String)
    (hat : strStartsWith p "@" = false) (hne : imp ≠ p)
    (hsep : strStartsWith imp (p ++ "/") = false) :
    matchesImport p imp = false := by
  simp [matchesImport, hat, hne, hsep]

/-! ### Usage verdicts -/

theorem usedVerdict_iff (p : String) (files : List String) (env : ImportEnv) :
    usedVerdict p files env = true ↔
      ∃ f ∈ files, ∃ imp ∈ env f, matchesImport p imp = true := by
  simp [usedVerdict, List.any_eq_true]

theorem isPackageUsed_nil_cache (p : String) (files : List String) (env : ImportEnv) :
    isPackageUsed [] p files env =
      (usedVerdict p files env,
       [((p, files.length), usedVerdict p files env)]) := rfl

/-! ### Insertion-order dedup -/

theorem mem_dedupFirst (x : String) :
    ∀ (l seen : List String), x ∈ dedupFirst seen l ↔ x ∈ l ∧ x ∉ seen := by
  intro l
  induction l with
  | nil => intro seen; simp [dedupFirst]
  | cons y ys ih =>
    intro seen
    by_cases hy : y ∈ seen
    · rw [dedupFirst, if_pos hy, ih]
      constructor
      · rintro ⟨hx, hs⟩
        exact ⟨List.mem_cons_of_mem _ hx, hs⟩
      · rintro ⟨hx, hs⟩
        rcases List.mem_cons.mp hx with rfl | hx
        · exact absurd hy hs
        · exact ⟨hx, hs⟩
    · rw [dedupFirst, if_neg hy, List.mem_cons, ih]
      constructor
      · rintro (rfl | ⟨hx, hs⟩)
        · exact ⟨List.mem_cons_self _ _, hy⟩
        · exact ⟨List.mem_cons_of_mem _ hx, fun hc => hs (List.mem_cons_of_mem _ hc)⟩
      · rintro ⟨hx, hs⟩
        by_cases hxy : x = y
        · exact Or.inl hxy
        · have hx' : x ∈ ys := by
            rcases List.mem_cons.mp hx with h | h
            · exact absurd h hxy
            · exact h
          refine Or.inr ⟨hx', fun hc => ?_⟩
          rcases List.mem_cons.mp hc with h | h
          · exact hxy h
          · exact hs h

theorem nodup_dedupFirst : ∀ (l seen : List String), (dedupFirst seen l).Nodup := by
  intro l
  induction l with
  | nil => intro seen; simp [dedupFirst]
  | cons y ys ih =>
    intro seen
    by_cases hy : y ∈ seen
    · rw [dedupFirst, if_pos hy]; exact ih seen
    · rw [dedupFirst, if_neg hy]
      refine List.nodup_cons.mpr ⟨fun hc => ?_, ih (y :: seen)⟩
      exact ((mem_dedupFirst y ys (y :: seen)).mp hc).2 (List.mem_cons_self _ _)

/-! ### Batch resolution agrees with the single-package scan -/

theorem batchMatches_iff (allImports : List String) (p : String) :
    batchMatches allImports p = true ↔
      ∃ imp ∈ allImports, matchesImport p imp = true := by
  rw [batchMatches, Bool.or_eq_true]
  constructor
  · rintro (h | h)
    · have hp : p ∈ allImports := by simpa using h
      exact ⟨p, hp, matchesImport_exact p⟩
    · rw [List.any_eq_true] at h
      obtain ⟨imp, hmem, hm⟩ := h
      rw [Bool.or_eq_true] at hm
      refine ⟨imp, hmem, ?_⟩
      rcases hm with h1 | h2
      · simp [matchesImport, h1]
      · simp [matchesImport, h2]
  · rintro ⟨imp, hmem, hm⟩
    rw [matchesImport, Bool.or_eq_true, Bool.or_eq_true] at hm
    rcases hm with (h | h) | h
    · left
      rw [beq_iff_eq] at h
      subst h; simpa using hmem
    · right
      rw [List.any_eq_true]
      exact ⟨imp, hmem, by simp [h]⟩
    · right
      rw [List.any_eq_true]
      exact ⟨imp, hmem, by simp [h]⟩

theorem usedVerdict_iff_flat (p : String) (files : List String) (env : ImportEnv) :
    usedVerdict p files env = true ↔
      ∃ imp ∈ files.flatMap env, matchesImport p imp = true := by
  rw [usedVerdict_iff]
  constructor
  · rintro ⟨f, hf, imp, hi, hm⟩
    exact ⟨imp, List.mem_flatMap.mpr ⟨f, hf, hi⟩, hm⟩
  · rintro ⟨imp, hmem, hm⟩
    obtain ⟨f, hf, hi⟩ := List.mem_flatMap.mp hmem
    exact ⟨f, hf, imp, hi, hm⟩

theorem batchMatches_eq_usedVerdict (files : List String) (env : ImportEnv) (p : String) :
    batchMatches (dedupFirst [] (files.flatMap env)) p = usedVerdict p files env := by
  rw [Bool.eq_iff_iff, batchMatches_iff, usedVerdict_iff_flat]
  constructor
  · rintro ⟨imp, hmem, hm⟩
    exact ⟨imp, ((mem_dedupFirst imp _ []).mp hmem).1, hm⟩
  · rintro ⟨imp, hmem, hm⟩
    exact ⟨imp, (mem_dedupFirst imp _ []).mpr ⟨hmem, by simp⟩, hm⟩

theorem batchGo_correct (files : List String) (env : ImportEnv) :
    ∀ (names : List String) (cache : UsageCache),
      CacheConsistent files env cache →
      CacheConsistent files env
          (batchGo (dedupFirst [] (files.flatMap env)) files.length names cache).2 ∧
      ∀ p ∈ names,
        (batchGo (dedupFirst [] (files.flatMap env)) files.length names cache).1.lookup p
          = some (usedVerdict p files env) := by
  intro names
  induction names with
  | nil =>
    intro cache hc
    exact ⟨hc, by simp [batchGo]⟩
  | cons q rest ih =>
    intro cache hc
    cases hlk : cache.lookup (q, files.length) with
    | some v =>
      have hv : v = usedVerdict q files env := hc q v hlk
      obtain ⟨hc', hres⟩ := ih cache hc
      constructor
      · simpa only [batchGo, hlk] using hc'
      · intro p hp
        simp only [batchGo, hlk]
        by_cases hpq : p = q
        · subst hpq
          simp [List.lookup, hv]
        · have hp' : p ∈ rest := by
            rcases List.mem_cons.mp hp with h | h
            · exact absurd h hpq
            · exact h
          rw [List.lookup, beq_eq_false_iff_ne.mpr hpq]
          exact hres p hp'
    | none =>
      have hext : CacheConsistent files env
          (((q, files.length), batchMatches (dedupFirst [] (files.flatMap env)) q) :: cache) := by
        intro q' v h
        by_cases hq : q' = q
        · subst hq
          rw [List.lookup] at h
          simp only [beq_self_eq_true] at h
          rw [Option.some_inj] at h
          rw [← h, batchMatches_eq_usedVerdict]
        · rw [List.lookup, beq_eq_false_iff_ne.mpr (by simpa using hq)] at h
          exact hc q' v h
      obtain ⟨hc', hres⟩ := ih _ hext
      constructor
      · simpa only [batchGo, hlk] using hc'
      · intro p hp
        simp only [batchGo, hlk]
        by_cases hpq : p = q
        · subst hpq
          simp [List.lookup, batchMatches_eq_usedVerdict]
        · have hp' : p ∈ rest := by
            rcases List.mem_cons.mp hp with h | h
            · exact absurd h hpq
            · exact h
          rw [List.lookup, beq_eq_false_iff_ne.mpr hpq]
          exact hres p hp'

theorem batchCheckPackageUsage_lookup (names files : List String) (env : ImportEnv)
    (p : String) (hp : p ∈ names) :
    (batchCheckPackageUsage [] names files env).1.lookup p
      = some (usedVerdict p files env) := by
  have h₀ : CacheConsistent files env [] := by
    intro q v h
    simp [List.lookup] at h
  exact (batchGo_correct files env names [] h₀).2 p hp

/-! ### Findings partition -/

theorem packageName_mkUnused (p : String) : (mkUnusedFinding p).packageName = p := rfl

theorem packageName_mkInfra (p : String) (r : Option String) :
    (mkInfraFinding p r).packageName = p := rfl

theorem processPackages_filter_not_mem (usage : String → Bool) :
    ∀ (names : List String) (p : String), p ∉ names →
      ((processPackages usage names).1 ++ (processPackages usage names).2).filter
          (fun r => r.packageName == p) = [] := by
  intro names
  induction names with
  | nil =>
    intro p _
    simp [processPackages]
  | cons q rest ih =>
    intro p hp
    have hqp : (q == p) = false := by
      refine beq_eq_false_iff_ne.mpr fun h => hp ?_
      exact h ▸ List.mem_cons_self _ _
    have hp' : p ∉ rest := fun h => hp (List.mem_cons_of_mem _ h)
    have hrest := ih p hp'
    rw [List.filter_append, List.append_eq_nil] at hrest
    rw [processPackages]
    by_cases hu : usage q
    · simpa [hu, List.filter_append] using ih p hp'
    · by_cases hi : (isInfrastructurePackage q).isInfra

      · simp [hu, hi, List.filter_append, hrest.1, hrest.2, mkInfraFinding, hqp]
      · simp [hu, hi, List.filter_append, hrest.1, hrest.2, mkUnusedFinding, hqp]

theorem processPackages_filter (usage : String → Bool) :
    ∀ (names : List String), names.Nodup → ∀ p ∈ names,
      ((processPackages usage names).1 ++ (processPackages usage names).2).filter
          (fun r => r.packageName == p) =
        (if usage p then []
         else if (isInfrastructurePackage p).isInfra then
           [mkInfraFinding p (isInfrastructurePackage p).reason]
         else [mkUnusedFinding p]) := by
  intro names
  induction names with
  | nil =>
    intro _ p hp
    exact absurd hp (List.not_mem_nil p)
  | cons q rest ih =>
    intro hnd p hp
    obtain ⟨hq_rest, hnd'⟩ := List.nodup_cons.mp hnd
    by_cases hpq : p = q
    · subst hpq
      have hrest := processPackages_filter_not_mem usage rest p hq_rest
      rw [List.filter_append, List.append_eq_nil] at hrest
      rw [processPackages]
      by_cases hu : usage p
      · simp [hu, List.filter_append, hrest.1, hrest.2]
      · by_cases hi : (isInfrastructurePackage p).isInfra
        · simp [hu, hi, List.filter_append, hrest.1, hrest.2, mkInfraFinding]
        · simp [hu, hi, List.filter_append, hrest.1, hrest.2, mkUnusedFinding]
    · have hp' : p ∈ rest := by
        rcases List.mem_cons.mp hp with h | h
        · exact absurd h hpq
        · exact h
      have hqp : (q == p) = false := beq_eq_false_iff_ne.mpr (Ne.symm hpq)
      have hrec := ih hnd' p hp'
      rw [List.filter_append] at hrec
      rw [processPackages]
      by_cases hu : usage q
      · simpa [hu, List.filter_append] using hrec
      · by_cases hi : (isInfrastructurePackage q).isInfra
        · simpa [hu, hi, List.filter_append, mkInfraFinding, hqp] using hrec
        · simpa [hu, hi, List.filter_append, mkUnusedFinding, hqp] using hrec

theorem detect_results_eq (c0 : UsageCache) (pkg : PackageJson) (fs : FileSys)
    (rootDir : String) (env : ImportEnv)
    (h : (getAllDependencyNames pkg).isEmpty = false) :
    (detectUnusedPackages c0 (.ok pkg) fs rootDir env).1.results
      = (processPackages (detectUsageFun pkg fs rootDir env)
            (getAllDependencyNames pkg)).1
        ++ (processPackages (detectUsageFun pkg fs rootDir env)
            (getAllDependencyNames pkg)).2 := by
  have hfun : detectUsageFun pkg fs rootDir env
      = fun q =>
        (((batchCheckPackageUsage [] (getAllDependencyNames pkg)
            (findProjectFiles fs rootDir) env).1.lookup q).getD false) := rfl
  rw [detectUnusedPackages]
  simp only [readPackageJson, h, Bool.false_eq_true, if_false, hfun,
    apply_ite ReporterState.results, ite_self]
  by_cases hl :
      0 < ((processPackages
          (fun q =>
            (((batchCheckPackageUsage [] (getAllDependencyNames pkg)
                (findProjectFiles fs rootDir) env).1.lookup q).getD false))
          (getAllDependencyNames pkg)).1).length
        ∨ 0 < ((processPackages
          (fun q =>
            (((batchCheckPackageUsage [] (getAllDependencyNames pkg)
                (findProjectFiles fs rootDir) env).1.lookup q).getD false))
          (getAllDependencyNames pkg)).2).length
  · simp [hl]
  · rw [not_or, Nat.not_lt, Nat.not_lt, Nat.le_zero, Nat.le_zero,
      List.length_eq_zero, List.length_eq_zero] at hl
    simp [hl.1, hl.2]

theorem nodup_getAllDependencyNames (pkg : PackageJson) :
    (getAllDependencyNames pkg).Nodup :=
  nodup_dedupFirst _ []

theorem detectUsageFun_eq (pkg : PackageJson) (fs : FileSys) (rootDir : String)
    (env : ImportEnv) (p : String) (hp : p ∈ getAllDependencyNames pkg) :
    detectUsageFun pkg fs rootDir env p
      = usedVerdict p (findProjectFiles fs rootDir) env := by
  rw [detectUsageFun, batchCheckPackageUsage_lookup _ _ _ p hp]
  rfl

/-! ## Claim theorems -/

/-- C1: every declared package lands in exactly one of the three outcomes —
used hence no finding (even if infrastructure-listed: the classifier is only
consulted on the unused branch), or exactly one truly-unused finding, or
exactly one infrastructure finding; never more than one finding and never
omitted. -/
theorem detect_partition_complete (c0 : UsageCache) (pkg : PackageJson)
    (fs : FileSys) (rootDir : String) (env : ImportEnv) (p : String)
    (hp : p ∈ getAllDependencyNames pkg) :
    ((detectUnusedPackages c0 (.ok pkg) fs rootDir env).1.results.filter
        (fun r => r.packageName == p)) =
      (if usedVerdict p (findProjectFiles fs rootDir) env then []
       else if (isInfrastructurePackage p).isInfra then
         [mkInfraFinding p (isInfrastructurePackage p).reason]
       else [mkUnusedFinding p]) := by
  have hne : (getAllDependencyNames pkg).isEmpty = false := by
    cases hn : getAllDependencyNames pkg with
    | nil => rw [hn] at hp; exact absurd hp (List.not_mem_nil p)
    | cons a l => rfl
  rw [detect_results_eq c0 pkg fs rootDir env hne,
    processPackages_filter _ _ (nodup_getAllDependencyNames pkg) p hp,
    detectUsageFun_eq _ _ _ _ p hp]

/-- Witness for C1 at a concrete run: a used package appearing nowhere in
the findings, alongside an unused infrastructure package receiving exactly
one infrastructure finding. -/
theorem detect_partition_complete_witness :
    ("typescript" ∈ getAllDependencyNames
      { name := "t", version := "1",
        dependencies := [("react", "^18.0.0"), ("typescript", "^5.0.0")],
        devDependencies := [], peerDependencies := [],
        optionalDependencies := [] }) ∧
    ((detectUnusedPackages [] (.ok
      { name := "t", version := "1",
        dependencies := [("react", "^18.0.0"), ("typescript", "^5.0.0")],
        devDependencies := [], peerDependencies := [],
        optionalDependencies := [] })
        (fun d => if d = [] then [.fileE "a.ts"] else []) "root"
        (fun f => if f = "root/a.ts" then ["react"] else [])).1.results.filter
          (fun r => r.packageName == "typescript")) =
      (if usedVerdict "typescript"
          (findProjectFiles (fun d => if d = [] then [.fileE "a.ts"] else []) "root")
          (fun f => if f = "root/a.ts" then ["react"] else []) then []
       else if (isInfrastructurePackage "typescript").isInfra then
         [mkInfraFinding "typescript" (isInfrastructurePackage "typescript").reason]
       else [mkUnusedFinding "typescript"]) :=
  ⟨by decide,
   detect_partition_complete [] _ _ "root" _ "typescript" (by decide)⟩

/-- C2: an import reference literally equal to the declared package makes it
used; a reference extending it with the `/` separator makes it used; but for
a non-scoped package, when every reference having the package name as a
string prefix is a separator-less strict extension (such as `react-dom` for
`react`), the package is not used. -/
theorem isPackageUsed_match_rules (p : String) (files : List String) (env : ImportEnv) :
    ((∃ f ∈ files, p ∈ env f) → (isPackageUsed [] p files env).1 = true) ∧
    ((∃ f ∈ files, ∃ x, x ≠ "" ∧ (p ++ "/" ++ x) ∈ env f) →
      (isPackageUsed [] p files env).1 = true) ∧
    (strStartsWith p "@" = false →
      (∀ f ∈ files, ∀ imp ∈ env f, strStartsWith imp p = true →
        imp ≠ p ∧ strStartsWith imp (p ++ "/") = false) →
      (isPackageUsed [] p files env).1 = false) := by
  have hred : (isPackageUsed [] p files env).1 = usedVerdict p files env := by
    rw [isPackageUsed_nil_cache]
  refine ⟨?_, ?_, ?_⟩
  · rintro ⟨f, hf, hi⟩
    rw [hred, usedVerdict_iff]
    exact ⟨f, hf, p, hi, matchesImport_exact p⟩
  · rintro ⟨f, hf, x, _, hi⟩
    rw [hred, usedVerdict_iff]
    exact ⟨f, hf, p ++ "/" ++ x, hi, matchesImport_subpath p x⟩
  · intro hat hall
    rw [hred, Bool.eq_false_iff]
    intro hv
    rw [usedVerdict_iff] at hv
    obtain ⟨f, hf, imp, hi, hm⟩ := hv
    obtain ⟨hne, hsep⟩ := hall f hf imp hi (startsWith_of_matchesImport p imp hm)
    rw [matchesImport_eq_false p imp hat hne hsep] at hm
    cases hm

/-- Witness for C2: `react` is used by an exact reference, `lodash` by the
sub-path reference `lodash/debounce`, and `react` is not used by a file whose
only reference is `react-dom`. -/
theorem isPackageUsed_match_rules_witness :
    ((∃ f ∈ ["a"], "react" ∈
        (fun f => if f = "a" then ["react", "lodash/debounce"] else ([] : List String)) f) ∧
      (isPackageUsed [] "react" ["a"]
        (fun f => if f = "a" then ["react", "lodash/debounce"] else [])).1 = true) ∧
    ((∃ f ∈ ["a"], ∃ x, x ≠ "" ∧ ("lodash" ++ "/" ++ x) ∈
        (fun f => if f = "a" then ["react", "lodash/debounce"] else ([] : List String)) f) ∧
      (isPackageUsed [] "lodash" ["a"]
        (fun f => if f = "a" then ["react", "lodash/debounce"] else [])).1 = true) ∧
    ((∀ f ∈ ["c"], ∀ imp ∈ (fun _ => ["react-dom"] : ImportEnv) f,
        strStartsWith imp "react" = true →
        imp ≠ "react" ∧ strStartsWith imp ("react" ++ "/") = false) ∧
      (isPackageUsed [] "react" ["c"] (fun _ => ["react-dom"])).1 = false) :=
  ⟨⟨⟨"a", by decide, by decide⟩,
    (isPackageUsed_match_rules "react" ["a"] _).1 ⟨"a", by decide, by decide⟩⟩,
   ⟨⟨"a", by decide, "debounce", by decide, by decide⟩,
    (isPackageUsed_match_rules "lodash" ["a"] _).2.1
      ⟨"a", by decide, "debounce", by decide, by decide⟩⟩,
   ⟨by decide,
    (isPackageUsed_match_rules "react" ["c"] _).2.2 (by decide) (by decide)⟩⟩

/-- C3: for a scoped package name, usage is exactly the existence of a
reference that has the package name as a bare string prefix — no separator
required, so `@scope/foobar` makes `@scope/foo` used, while `@scope/other`
does not make `@scope/name` used. -/
theorem isPackageUsed_scoped_rule (p : String) (files : List String)
    (env : ImportEnv) (hat : strStartsWith p "@" = true) :
    (isPackageUsed [] p files env).1 = true ↔
      ∃ f ∈ files, ∃ imp ∈ env f, strStartsWith imp p = true := by
  have hred : (isPackageUsed [] p files env).1 = usedVerdict p files env := by
    rw [isPackageUsed_nil_cache]
  rw [hred, usedVerdict_iff]
  constructor
  · rintro ⟨f, hf, imp, hi, hm⟩
    exact ⟨f, hf, imp, hi, startsWith_of_matchesImport p imp hm⟩
  · rintro ⟨f, hf, imp, hi, hpre⟩
    exact ⟨f, hf, imp, hi, matchesImport_scoped p imp hat hpre⟩

/-- Witness for C3: the loose prefix rule in action — a reference to
`@scope/foobar` counts for the package `@scope/foo`. -/
theorem isPackageUsed_scoped_rule_witness :
    (strStartsWith "@scope/foo" "@" = true) ∧
    ((isPackageUsed [] "@scope/foo" ["a"]
        ((fun _ => ["@scope/foobar"]) : ImportEnv)).1 = true ↔
      ∃ f ∈ ["a"], ∃ imp ∈ ((fun _ => ["@scope/foobar"]) : ImportEnv) f,
        strStartsWith imp "@scope/foo" = true) :=
  ⟨by decide, isPackageUsed_scoped_rule "@scope/foo" ["a"] _ (by decide)⟩

/-- C4: from cleared caches, the batch resolver maps every requested package
name to exactly the verdict the single-package resolver returns for it. -/
theorem batch_refines_single (names files : List String) (env : ImportEnv)
    (p : String) (hp : p ∈ names) :
    (batchCheckPackageUsage [] names files env).1.lookup p
      = some ((isPackageUsed [] p files env).1) := by
  rw [batchCheckPackageUsage_lookup names files env p hp, isPackageUsed_nil_cache]

/-- Witness for C4 at a concrete batch query. -/
theorem batch_refines_single_witness :
    ("lodash" ∈ ["react", "lodash"]) ∧
    (batchCheckPackageUsage [] ["react", "lodash"] ["a"]
        ((fun _ => ["lodash/debounce"]) : ImportEnv)).1.lookup "lodash"
      = some ((isPackageUsed [] "lodash" ["a"]
          ((fun _ => ["lodash/debounce"]) : ImportEnv)).1) :=
  ⟨by decide, batch_refines_single ["react", "lodash"] ["a"] _ "lodash" (by decide)⟩

/-- C5 counterexample: `"@types/node"` IS individually listed in the static
table (src/analyzer.ts:28), so its classification carries the Node.js-types
justification from the exact-match rule, not the scope-pattern rule's generic
type-definitions justification; the unused-`@types/node` run emits its one
infrastructure finding with that table reason. -/
theorem types_node_generic_reason_counterexample :
    ("@types/node", "Type definitions - needed for Node.js types")
        ∈ INFRASTRUCTURE_PACKAGES ∧
    isInfrastructurePackage "@types/node"
      = ⟨true, some "Type definitions - needed for Node.js types"⟩ ∧
    (isInfrastructurePackage "@types/node").reason
      ≠ some "Type definitions - needed for TypeScript support" ∧
    (detectUnusedPackages [] (.ok
      { name := "t", version := "1",
        dependencies := [("@types/node", "^20.0.0")],
        devDependencies := [], peerDependencies := [],
        optionalDependencies := [] })
        (fun d => if d = [] then [.fileE "a.ts"] else []) "root"
        (fun _ => [])).1.results
      = [mkInfraFinding "@types/node"
          (some "Type definitions - needed for Node.js types")] := by
  refine ⟨by decide, by decide, by decide, by decide⟩

/-- C5 (amended): every package name with the `@types/` scope prefix is
classified infrastructure, so an unused `@types/node` dependency yields
exactly one infrastructure finding — but through the exact static-table
entry (`@types/node` is individually listed) with the Node.js-types
justification, not through the scope-pattern rule's generic one. -/
theorem types_scope_always_infrastructure (p : String)
    (hp : strStartsWith p "@types/" = true) :
    (isInfrastructurePackage p).isInfra = true ∧
    (detectUnusedPackages [] (.ok
      { name := "t", version := "1",
        dependencies := [("@types/node", "^20.0.0")],
        devDependencies := [], peerDependencies := [],
        optionalDependencies := [] })
        (fun d => if d = [] then [.fileE "a.ts"] else []) "root"
        (fun _ => [])).1.results
      = [mkInfraFinding "@types/node"
          (some "Type definitions - needed for Node.js types")] := by
  constructor
  · cases hlk : INFRASTRUCTURE_PACKAGES.lookup p with
    | some r => rw [isInfrastructurePackage, hlk]
    | none => rw [isInfrastructurePackage, hlk]; simp [hp]
  · decide

/-- Witness for C5 (amended) at `@types/node` itself. -/
theorem types_scope_always_infrastructure_witness :
    (strStartsWith "@types/node" "@types/" = true) ∧
    ((isInfrastructurePackage "@types/node").isInfra = true ∧
      (detectUnusedPackages [] (.ok
        { name := "t", version := "1",
          dependencies := [("@types/node", "^20.0.0")],
          devDependencies := [], peerDependencies := [],
          optionalDependencies := [] })
          (fun d => if d = [] then [.fileE "a.ts"] else []) "root"
          (fun _ => [])).1.results
        = [mkInfraFinding "@types/node"
            (some "Type definitions - needed for Node.js types")]) :=
  ⟨by decide, types_scope_always_infrastructure "@types/node" (by decide)⟩

/-- C6: a missing manifest or an unparseable manifest is surfaced as exactly
one user-facing error message at the orchestrator boundary, with zero
findings emitted — no partial results reach the reporter, and the run does
not crash (the embedded orchestrator is a total function). -/
theorem manifest_errors_handled (c0 : UsageCache) (fs : FileSys)
    (rootDir : String) (env : ImportEnv) (msg : String) :
    ((detectUnusedPackages c0 .missing fs rootDir env).1.results = [] ∧
     (detectUnusedPackages c0 .missing fs rootDir env).1.errors
        = ["Failed to detect unused packages: "
            ++ "package.json not found in current directory"]) ∧
    ((detectUnusedPackages c0 (.unparseable msg) fs rootDir env).1.results = [] ∧
     (detectUnusedPackages c0 (.unparseable msg) fs rootDir env).1.errors
        = ["Failed to detect unused packages: "
            ++ ("Failed to parse package.json: " ++ msg)]) :=
  ⟨⟨rfl, rfl⟩, ⟨rfl, rfl⟩⟩

/-- C7: a second run against the same manifest and file tree reproduces the
first run's reporter output exactly (in particular the same list of
findings, hence the same set), because `clearCaches` resets every run-scoped
cache at the start of each run. -/
theorem detect_idempotent (c0 : UsageCache) (manifest : ManifestState)
    (fs : FileSys) (rootDir : String) (env : ImportEnv) :
    (detectUnusedPackages
        ((detectUnusedPackages c0 manifest fs rootDir env).2)
        manifest fs rootDir env).1
      = (detectUnusedPackages c0 manifest fs rootDir env).1 := rfl

/-- C8: with zero declared dependencies the run stops right after the
"no dependencies" informational message: zero findings, no file-count
message (so no file scan is reported), no success message — and this differs
from the clean all-used outcome, which does report success messages. -/
theorem empty_dependencies_early_return (c0 : UsageCache) (fs : FileSys)
    (rootDir : String) (env : ImportEnv) (pkg : PackageJson)
    (h : getAllDependencyNames pkg = []) :
    (detectUnusedPackages c0 (.ok pkg) fs rootDir env).1 =
      { results := [],
        infos := ["Scanning project files for imports...",
                  "No dependencies found in package.json"],
        successes := [], errors := [] } ∧
    (detectUnusedPackages [] (.ok
      { name := "t", version := "1",
        dependencies := [("react", "^18.0.0")],
        devDependencies := [], peerDependencies := [],
        optionalDependencies := [] })
        (fun d => if d = [] then [.fileE "a.ts"] else []) "root"
        (fun f => if f = "root/a.ts" then ["react"] else [])).1.successes
      = ["All packages are being used",
         "✅ No unused packages found! All dependencies are being used."] := by
  constructor
  · rw [detectUnusedPackages]
    simp [readPackageJson, h]
  · decide

/-- Witness for C8 at a manifest whose four dependency groups are all
empty. -/
theorem empty_dependencies_early_return_witness :
    (getAllDependencyNames
      { name := "t", version := "1", dependencies := [],
        devDependencies := [], peerDependencies := [],
        optionalDependencies := [] } = []) ∧
    ((detectUnusedPackages [] (.ok
      { name := "t", version := "1", dependencies := [],
        devDependencies := [], peerDependencies := [],
        optionalDependencies := [] })
        (fun d => if d = [] then [.fileE "a.ts"] else []) "root"
        (fun _ => [])).1 =
      { results := [],
        infos := ["Scanning project files for imports...",
                  "No dependencies found in package.json"],
        successes := [], errors := [] } ∧
    (detectUnusedPackages [] (.ok
      { name := "t", version := "1",
        dependencies := [("react", "^18.0.0")],
        devDependencies := [], peerDependencies := [],
        optionalDependencies := [] })
        (fun d => if d = [] then [.fileE "a.ts"] else []) "root"
        (fun f => if f = "root/a.ts" then ["react"] else [])).1.successes
      = ["All packages are being used",
         "✅ No unused packages found! All dependencies are being used."]) :=
  ⟨by decide,
   empty_dependencies_early_return [] _ "root" _ _ (by decide)⟩

theorem scanDirectory_length_le (fs : FileSys) (exts excl : List String) :
    ∀ (fuel : Nat) (dir comps : List String),
      comps ∈ scanDirectory fs exts excl fuel dir →
      comps.length ≤ dir.length + fuel := by
  intro fuel
  induction fuel with
  | zero =>
    intro dir comps h
    simp [scanDirectory] at h
  | succ n ih =>
    intro dir comps h
    rw [scanDirectory, List.mem_flatMap] at h
    obtain ⟨item, _, hitem⟩ := h
    cases item with
    | dirE name =>
      dsimp only at hitem
      by_cases hex : excl.contains name = true
      · rw [if_pos hex] at hitem
        cases hitem
      · rw [if_neg hex] at hitem
        have hrec := ih (dir ++ [name]) comps hitem
        rw [List.length_append] at hrec
        have hrec' : comps.length ≤ dir.length + 1 + n := by simpa using hrec
        omega
    | fileE name =>
      dsimp only at hitem
      by_cases hext : exts.contains (strToLower (extname name)) = true
      · rw [if_pos hext] at hitem
        rw [List.mem_singleton] at hitem
        subst hitem
        rw [List.length_append]
        simp
      · rw [if_neg hext] at hitem
        cases hitem

/-- C9: the locator's descent is depth-bounded — every collected file lies
at most 21 path components below the scan root (directories deeper than the
bound are silently not descended into), and the walk is a total function
even on a symlink-cyclic tree (second conjunct: a filesystem whose every
directory contains another directory) and silently drops a file nested
beyond the bound (third conjunct) instead of failing. -/
theorem findProjectFiles_depth_bounded :
    (∀ (fs : FileSys) (rootDir s : String),
      s ∈ findProjectFiles fs rootDir →
      ∃ comps, comps.length ≤ 21 ∧
        s = String.intercalate "/" (rootDir :: comps)) ∧
    findProjectFiles (fun _ => [.dirE "sub"]) "root" = [] ∧
    findProjectFiles
        (fun d => if d.length < 21 then [.dirE "d"] else [.fileE "deep.ts"])
        "r" = [] := by
  refine ⟨?_, by decide, by decide⟩
  intro fs rootDir s hs
  rw [findProjectFiles, List.mem_map] at hs
  obtain ⟨comps, hmem, rfl⟩ := hs
  refine ⟨comps, ?_, rfl⟩
  simpa using scanDirectory_length_le fs defaultExtensions defaultExcludeDirs 21 [] comps hmem

/-- Witness for C9: a concrete collected file, at one component below the
root. -/
theorem findProjectFiles_depth_bounded_witness :
    ("root/a.ts" ∈ findProjectFiles
        (fun d => if d = [] then [.fileE "a.ts"] else []) "root") ∧
    (∃ comps, comps.length ≤ 21 ∧
      "root/a.ts" = String.intercalate "/" ("root" :: comps)) :=
  ⟨by decide,
   findProjectFiles_depth_bounded.1
     (fun d => if d = [] then [.fileE "a.ts"] else []) "root" "root/a.ts"
     (by decide)⟩

/-- C10: the usage cache key is the pair (package name, file-list length):
after a call on file list `A`, any call — single or batch — on a file list
`B` of the same length returns `A`'s cached verdict, whatever `B`
contains. -/
theorem usage_cache_key_collision (p : String) (A B : List String)
    (env : ImportEnv) (h : A.length = B.length) :
    (isPackageUsed ((isPackageUsed [] p A env).2) p B env).1
        = (isPackageUsed [] p A env).1 ∧
    (batchCheckPackageUsage ((isPackageUsed [] p A env).2) [p] B env).1.lookup p
        = some ((isPackageUsed [] p A env).1) := by
  have hb : B.length = A.length := h.symm
  rw [isPackageUsed_nil_cache]
  constructor
  · rw [isPackageUsed]
    simp [List.lookup, hb]
  · rw [batchCheckPackageUsage, batchGo]
    simp [List.lookup, hb]

/-- Witness for C10: the second call's file list `["b"]` contains no
reference to `react` at all, yet the verdict cached for `["a"]` (true) is
returned. -/
theorem usage_cache_key_collision_witness :
    (["a"].length = ["b"].length) ∧
    ((isPackageUsed ((isPackageUsed [] "react" ["a"]
        (fun f => if f = "a" then ["react"] else [])).2) "react" ["b"]
        (fun f => if f = "a" then ["react"] else [])).1
      = (isPackageUsed [] "react" ["a"]
          (fun f => if f = "a" then ["react"] else [])).1 ∧
    (batchCheckPackageUsage ((isPackageUsed [] "react" ["a"]
        (fun f => if f = "a" then ["react"] else [])).2) ["react"] ["b"]
        (fun f => if f = "a" then ["react"] else [])).1.lookup "react"
      = some ((isPackageUsed [] "react" ["a"]
          (fun f => if f = "a" then ["react"] else [])).1)) :=
  ⟨by decide,
   usage_cache_key_collision "react" ["a"] ["b"]
     (fun f => if f = "a" then ["react"] else []) (by decide)⟩

end PackageDetector
